import Mathlib

/-!
Shallow embedding of the group-syncable linkage subsystem of
`api4/group.go` (Mattermost server, group linkage API).

The handlers `linkGroupSyncable`, `patchGroupSyncable`,
`unlinkGroupSyncable`, `getGroups` and `getGroupsByTeam` are translated
from the source.  The store and model helpers they call
(`App.GetGroupSyncable`, `App.CreateGroupSyncable`,
`App.UpdateGroupSyncable`, `App.DeleteGroupSyncable`,
`model.GroupSyncable.Patch`, `App.GetGroupsPage`, `App.GetGroupsByTeam`)
live outside the given source tree; those are modelled from the spec and
are marked as such in their doc comments.
-/

namespace Api4Group

/-- The closed syncable-type variant set: `model.GroupSyncableTypeTeam`
and `model.GroupSyncableTypeChannel`. -/
inductive GroupSyncableType
  | team
  | channel
deriving DecidableEq

/-- A `model.GroupSyncable` record: composite identity
`(groupId, syncableId, type)`, the auto-add flag, a creation timestamp
and the soft-delete timestamp `deleteAt` (0 means active). -/
structure GroupSyncable where
  groupId : String
  syncableId : String
  type : GroupSyncableType
  autoAdd : Bool
  createAt : Nat
  deleteAt : Nat
deriving DecidableEq

/-- A `model.GroupSyncablePatch`: partial update payload carrying the
auto-add flag. -/
structure GroupSyncablePatch where
  autoAdd : Option Bool
deriving DecidableEq

/-- Modelled from the spec: `model.GroupSyncable.Patch` is not under the
given source tree.  The spec says applying a patch "mutates only the
fields present, leaving others unchanged", and the patchable payload
carries the auto-add flag. -/
def GroupSyncable.patch (gs : GroupSyncable) (p : GroupSyncablePatch) : GroupSyncable :=
  { gs with autoAdd := p.autoAdd.getD gs.autoAdd }

/-- The permissions consulted by these handlers. -/
inductive Permission
  | manageTeam
  | managePublicChannelMembers
  | managePrivateChannelMembers
  | manageSystem
deriving DecidableEq

/-- The string `sql.ErrNoRows.Error()` that the link handler compares
the lookup error's `DetailedError` against. -/
def sqlErrNoRows : String := "sql: no rows in result set"

/-- The error outcomes a handler can set on the request context. -/
inductive ApiError
  | licenseError
  | permissionDenied (p : Permission)
  | storeFailure (detailedError : String)
deriving DecidableEq

/-- The `DetailedError` field of an app error: store failures carry their
detail string, other errors have an empty one. -/
def ApiError.detailed : ApiError → String
  | .storeFailure d => d
  | _ => ""

/-- Whether a record has the composite identity `(g, s, t)`. -/
def matchesTriple (g s : String) (t : GroupSyncableType) (r : GroupSyncable) : Bool :=
  decide (r.groupId = g ∧ r.syncableId = s ∧ r.type = t)

/-- Whether a record has the identity `(g, s, t)` and is not tombstoned. -/
def activeMatch (g s : String) (t : GroupSyncableType) (r : GroupSyncable) : Bool :=
  matchesTriple g s t r && decide (r.deleteAt = 0)

/-- The SyncableStore state: the stored records, plus an injectable
lookup fault standing for an upstream persistence failure (when `some d`,
lookups fail with a store error whose `DetailedError` is `d`). -/
structure Store where
  records : List GroupSyncable
  lookupFault : Option String
deriving DecidableEq

/-- Modelled from the spec: `App.GetGroupSyncable` is not under the given
source tree.  `SyncableStore.Find` returns the record for the triple
(tombstoned ones included) or a not-found error whose `DetailedError` is
`sql.ErrNoRows.Error()`; an upstream fault surfaces as an opaque store
failure. -/
def Store.getGroupSyncable (st : Store) (g s : String) (t : GroupSyncableType) :
    Except ApiError GroupSyncable :=
  match st.lookupFault with
  | some d => .error (.storeFailure d)
  | none =>
    match st.records.find? (matchesTriple g s t) with
    | some r => .ok r
    | none => .error (.storeFailure sqlErrNoRows)

/-- Modelled from the spec: `App.CreateGroupSyncable` is not under the
given source tree.  `SyncableStore.Create` persists the record, assigning
a fresh creation timestamp, and returns the persisted record. -/
def Store.createGroupSyncable (st : Store) (gs : GroupSyncable) (now : Nat) :
    GroupSyncable × Store :=
  let gs2 := { gs with createAt := now }
  (gs2, { st with records := gs2 :: st.records })

/-- Modelled from the spec: `App.UpdateGroupSyncable` is not under the
given source tree.  `SyncableStore.Update` overwrites the stored record
that has the given record's identity and returns the persisted record. -/
def Store.updateGroupSyncable (st : Store) (gs : GroupSyncable) :
    GroupSyncable × Store :=
  (gs,
   { st with records := st.records.map (fun r =>
       if matchesTriple gs.groupId gs.syncableId gs.type r then gs else r) })

/-- Modelled from the spec: `App.DeleteGroupSyncable` is not under the
given source tree.  `SyncableStore.Delete` tombstones the active record
for the triple (`deleteAt` set to the current time); when the record is
nonexistent or already tombstoned the store's not-found error is
propagated. -/
def Store.deleteGroupSyncable (st : Store) (g s : String) (t : GroupSyncableType)
    (now : Nat) : Except ApiError Store :=
  match st.records.find? (activeMatch g s t) with
  | some _ =>
    .ok { st with records := st.records.map (fun r =>
        if activeMatch g s t r then { r with deleteAt := now } else r) }
  | none => .error (.storeFailure sqlErrNoRows)

/-- The request environment: the license/feature gate and the session
permission oracles (`SessionHasPermissionToTeam`,
`SessionHasPermissionToChannel`, `SessionHasPermissionTo`), which are
external collaborators of this subsystem. -/
structure Env where
  licenseOk : Bool
  hasTeamPermission : String → Permission → Bool
  hasChannelPermission : String → Permission → Bool
  hasSystemPermission : Permission → Bool

/-- The permission switch of `linkGroupSyncable` (group.go lines
222-233): linking to a team checks `PERMISSION_MANAGE_TEAM` on the team
and names it on denial; linking to a channel checks
`PERMISSION_MANAGE_PUBLIC_CHANNEL_MEMBERS` on the channel but names
`PERMISSION_MANAGE_PRIVATE_CHANNEL_MEMBERS` on denial, exactly as the
source does. -/
def linkPermissionCheck (env : Env) (syncableId : String) :
    GroupSyncableType → Option ApiError
  | .team =>
    if !env.hasTeamPermission syncableId .manageTeam then
      some (.permissionDenied .manageTeam)
    else
      none
  | .channel =>
    if !env.hasChannelPermission syncableId .managePublicChannelMembers then
      some (.permissionDenied .managePrivateChannelMembers)
    else
      none

/-- `linkGroupSyncable` (group.go lines 186-272), after parameter and
body parsing: the license gate, the per-type permission switch, the
lookup of the existing record, and the create-or-resurrect-or-update
branch.  Returns the handler outcome, the resulting store state, and the
number of store writes performed. -/
def linkGroupSyncable (env : Env) (st : Store) (now : Nat)
    (groupId syncableId : String) (syncableType : GroupSyncableType)
    (patch : GroupSyncablePatch) :
    Except ApiError GroupSyncable × Store × Nat :=
  if !env.licenseOk then
    (.error .licenseError, st, 0)
  else
    match linkPermissionCheck env syncableId syncableType with
    | some e => (.error e, st, 0)
    | none =>
      match st.getGroupSyncable groupId syncableId syncableType with
      | .error appErr =>
        if appErr.detailed ≠ sqlErrNoRows then
          (.error appErr, st, 0)
        else
          let gs0 : GroupSyncable :=
            { groupId := groupId, syncableId := syncableId, type := syncableType,
              autoAdd := false, createAt := 0, deleteAt := 0 }
          let gs1 := gs0.patch patch
          let (gs2, st2) := st.createGroupSyncable gs1 now
          (.ok gs2, st2, 1)
      | .ok found =>
        let gs1 := ({ found with deleteAt := 0 }).patch patch
        let (gs2, st2) := st.updateGroupSyncable gs1
        (.ok gs2, st2, 1)

/-- `patchGroupSyncable` (group.go lines 354-417), after parameter and
body parsing: license gate, system permission gate, fetch (any fetch
error, the not-found one included, aborts), apply patch, persist
update. -/
def patchGroupSyncable (env : Env) (st : Store)
    (groupId syncableId : String) (syncableType : GroupSyncableType)
    (patch : GroupSyncablePatch) :
    Except ApiError GroupSyncable × Store × Nat :=
  if !env.licenseOk then
    (.error .licenseError, st, 0)
  else if !env.hasSystemPermission .manageSystem then
    (.error (.permissionDenied .manageSystem), st, 0)
  else
    match st.getGroupSyncable groupId syncableId syncableType with
    | .error appErr => (.error appErr, st, 0)
    | .ok found =>
      let gs1 := found.patch patch
      let (gs2, st2) := st.updateGroupSyncable gs1
      (.ok gs2, st2, 1)

/-- `unlinkGroupSyncable` (group.go lines 419-454), after parameter
parsing: license gate, the single system-level permission gate (not
branched by syncable type), then the store delete, whose error is
propagated unchanged. -/
def unlinkGroupSyncable (env : Env) (st : Store) (now : Nat)
    (groupId syncableId : String) (syncableType : GroupSyncableType) :
    Except ApiError Unit × Store :=
  if !env.licenseOk then
    (.error .licenseError, st)
  else if !env.hasSystemPermission .manageSystem then
    (.error (.permissionDenied .manageSystem), st)
  else
    match st.deleteGroupSyncable groupId syncableId syncableType now with
    | .error e => (.error e, st)
    | .ok st2 => (.ok (), st2)

/-- A `model.Group`: identifier, display name, remote-source identifier,
optional computed member count, soft-delete timestamp. -/
structure Group where
  id : String
  displayName : String
  remoteId : String
  memberCount : Option Nat
  deleteAt : Nat
deriving DecidableEq

/-- `model.GroupSearchOpts`: the search options the two listing handlers
assemble and pass to the store search. -/
structure GroupSearchOpts where
  q : Option String
  includeMemberCount : Bool
  notAssociatedToTeam : Option String
deriving DecidableEq

/-- The query parameters of the listing requests (`web.Params`): the
search string, the page and page-size, the member-count flag, the
not-associated-to-team team id, and the optional paginate flag. -/
structure Params where
  q : String
  page : Nat
  perPage : Nat
  includeMemberCount : Bool
  notAssociatedToTeam : String
  paginate : Option Bool
deriving DecidableEq

/-- The GroupStore-side world the listing operations read: the stored
groups, the group-to-team association pairs, and the member counts. -/
structure GroupsWorld where
  groups : List Group
  teamAssociations : List (String × String)
  memberCounts : String → Nat

/-- Whether `hay` starts with `needle` (character lists). -/
def charsStartWith : List Char → List Char → Bool
  | [], _ => true
  | _ :: _, [] => false
  | a :: as, b :: bs => a == b && charsStartWith as bs

/-- Whether `needle` occurs as a contiguous run inside `hay`. -/
def charsContain (needle : List Char) : List Char → Bool
  | [] => charsStartWith needle []
  | c :: rest => charsStartWith needle (c :: rest) || charsContain needle rest

/-- Modelled from the spec: the store-side application of
`GroupSearchOpts` is not under the given source tree.  The spec says the
options mean: `q` a substring filter on the display name,
`notAssociatedToTeam` the exclusion of groups already linked to the
given team, `includeMemberCount` attaching the computed member count. -/
def applyGroupSearchOpts (w : GroupsWorld) (opts : GroupSearchOpts)
    (l : List Group) : List Group :=
  let afterQ :=
    match opts.q with
    | some qs => l.filter (fun g => charsContain qs.toList g.displayName.toList)
    | none => l
  let afterTeam :=
    match opts.notAssociatedToTeam with
    | some tid => afterQ.filter (fun g => !w.teamAssociations.contains (g.id, tid))
    | none => afterQ
  if opts.includeMemberCount then
    afterTeam.map (fun g => { g with memberCount := some (w.memberCounts g.id) })
  else
    afterTeam

/-- Modelled from the spec: `App.GetGroupsPage` is not under the given
source tree.  The spec says groups with a non-zero delete timestamp are
excluded from active listings; the options are applied and the requested
page slice is returned. -/
def getGroupsPageApp (w : GroupsWorld) (page perPage : Nat)
    (opts : GroupSearchOpts) : List Group :=
  let base := w.groups.filter (fun g => decide (g.deleteAt = 0))
  let filtered := applyGroupSearchOpts w opts base
  (filtered.drop (page * perPage)).take perPage

/-- Modelled from the spec: `App.GetGroupsByTeam` is not under the given
source tree.  It returns the ordered sequence of groups associated with
the team, with the options applied; a `nil` page or perPage pointer
selects the full unpaginated result, otherwise the page slice. -/
def getGroupsByTeamApp (w : GroupsWorld) (teamId : String)
    (page perPage : Option Nat) (opts : GroupSearchOpts) : List Group :=
  let base := w.groups.filter (fun g => w.teamAssociations.contains (g.id, teamId))
  let filtered := applyGroupSearchOpts w opts base
  match page, perPage with
  | some pg, some pp => (filtered.drop (pg * pp)).take pp
  | _, _ => filtered

/-- `getGroups` (group.go lines 71-108), after query-parameter
extraction: license gate, then option assembly — the q filter when the
query has length > 1, the notAssociatedToTeam filter (with its
`PERMISSION_MANAGE_TEAM` check on that team) only when that parameter
has length exactly 26, the member-count flag — then the paged store
search.  No other permission check is performed by this handler. -/
def getGroups (env : Env) (w : GroupsWorld) (params : Params) :
    Except ApiError (List Group) :=
  if !env.licenseOk then
    .error .licenseError
  else
    let opts0 : GroupSearchOpts :=
      { q := none, includeMemberCount := false, notAssociatedToTeam := none }
    let opts1 := if params.q.length > 1 then { opts0 with q := some params.q } else opts0
    if params.notAssociatedToTeam.length = 26 then
      if !env.hasTeamPermission params.notAssociatedToTeam .manageTeam then
        .error (.permissionDenied .manageTeam)
      else
        let opts2 := { opts1 with notAssociatedToTeam := some params.notAssociatedToTeam }
        let opts3 :=
          if params.includeMemberCount then
            { opts2 with includeMemberCount := true }
          else opts2
        .ok (getGroupsPageApp w params.page params.perPage opts3)
    else
      let opts3 :=
        if params.includeMemberCount then
          { opts1 with includeMemberCount := true }
        else opts1
      .ok (getGroupsPageApp w params.page params.perPage opts3)

/-- The option assembly of `getGroupsByTeam` (group.go lines 543-549):
only the q filter (when the query has length > 1) and the member-count
flag are read; the notAssociatedToTeam parameter is not consulted. -/
def buildTeamSearchOpts (params : Params) : GroupSearchOpts :=
  let opts0 : GroupSearchOpts :=
    { q := none, includeMemberCount := false, notAssociatedToTeam := none }
  let opts1 := if params.q.length > 1 then { opts0 with q := some params.q } else opts0
  if params.includeMemberCount then { opts1 with includeMemberCount := true } else opts1

/-- `getGroupsByTeam` (group.go lines 524-569), after parameter
extraction: license gate, `PERMISSION_MANAGE_TEAM` gate on the team,
option assembly, then the store search — unpaginated (nil page and
perPage) when the paginate parameter is present and false, the page
slice otherwise. -/
def getGroupsByTeam (env : Env) (w : GroupsWorld) (teamId : String)
    (params : Params) : Except ApiError (List Group) :=
  if !env.licenseOk then
    .error .licenseError
  else if !env.hasTeamPermission teamId .manageTeam then
    .error (.permissionDenied .manageTeam)
  else
    let opts := buildTeamSearchOpts params
    if params.paginate = some false then
      .ok (getGroupsByTeamApp w teamId none none opts)
    else
      .ok (getGroupsByTeamApp w teamId (some params.page) (some params.perPage) opts)

/-- A fully permissive environment, used to instantiate theorems with
hypotheses at concrete inputs. -/
def envAllow : Env :=
  ⟨true, fun _ _ => true, fun _ _ => true, fun _ => true⟩

/-- A session that holds exactly `PERMISSION_MANAGE_PRIVATE_CHANNEL_MEMBERS`
on every channel and nothing else. -/
def envOnlyPrivate : Env :=
  ⟨true, fun _ _ => false,
   fun _ p => decide (p = .managePrivateChannelMembers),
   fun _ => false⟩

/-- A session that holds exactly `PERMISSION_MANAGE_PUBLIC_CHANNEL_MEMBERS`
on every channel and nothing else. -/
def envOnlyPublic : Env :=
  ⟨true, fun _ _ => false,
   fun _ p => decide (p = .managePublicChannelMembers),
   fun _ => false⟩

/-- A 26-character team id, the length `getGroups` requires of the
not-associated-to-team parameter. -/
def teamId26 : String := "abcdefghijklmnopqrstuvwxyz"

/-- A concrete group used to instantiate the listing theorems. -/
def groupEng : Group := ⟨"g1", "Engineers", "r1", none, 0⟩

/-- A concrete world where `groupEng` is associated to `teamId26`. -/
def assocWorld : GroupsWorld := ⟨[groupEng], [("g1", teamId26)], fun _ => 0⟩

/-- A concrete world with two groups associated to team `"T"`. -/
def teamWorld : GroupsWorld :=
  ⟨[⟨"g1", "Alpha", "r1", none, 0⟩, ⟨"g2", "Beta", "r2", none, 0⟩],
   [("g1", "T"), ("g2", "T")], fun _ => 0⟩

-- Sanity checks while developing (removed facts are proved as theorems below).
example :
    linkGroupSyncable envAllow
      ⟨[], none⟩ 5 "g" "s" .team ⟨some true⟩ =
    (.ok ⟨"g", "s", .team, true, 5, 0⟩,
     ⟨[⟨"g", "s", .team, true, 5, 0⟩], none⟩, 1) := rfl

/-- When the session holds the capability the link switch checks for the
given syncable type, the permission switch passes. -/
theorem linkPermissionCheck_none (env : Env) (s : String) (t : GroupSyncableType)
    (ht : t = .team → env.hasTeamPermission s .manageTeam = true)
    (hc : t = .channel → env.hasChannelPermission s .managePublicChannelMembers = true) :
    linkPermissionCheck env s t = none := by
  cases t
  · simp [linkPermissionCheck, ht rfl]
  · simp [linkPermissionCheck, hc rfl]

/-- A store update aimed at a triple no stored record matches leaves the
record list unchanged. -/
theorem update_map_of_no_match (l : List GroupSyncable) (g s : String)
    (t : GroupSyncableType) (gs : GroupSyncable)
    (h : l.find? (matchesTriple g s t) = none) :
    l.map (fun r => if matchesTriple g s t r then gs else r) = l := by
  induction l with
  | nil => rfl
  | cons a tl ih =>
    cases ha : matchesTriple g s t a with
    | true => simp [List.find?, ha] at h
    | false =>
      simp only [List.find?, ha] at h
      simp [ha, ih h]

/-- A tombstoning pass aimed at a triple no stored record matches leaves
the record list unchanged. -/
theorem tombstone_map_of_no_match (l : List GroupSyncable) (g s : String)
    (t : GroupSyncableType) (n : Nat)
    (h : l.find? (matchesTriple g s t) = none) :
    l.map (fun r => if activeMatch g s t r then { r with deleteAt := n } else r) = l := by
  induction l with
  | nil => rfl
  | cons a tl ih =>
    cases ha : matchesTriple g s t a with
    | true => simp [List.find?, ha] at h
    | false =>
      simp only [List.find?, ha] at h
      have haa : activeMatch g s t a = false := by simp [activeMatch, ha]
      simp [List.map_cons, haa, ih h]

/-- Claim C1: a Link call that passes the license and permission gates
looks up the existing record for the triple (tombstoned ones included)
and takes exactly one of the branches: not found → a fresh record with
the triple's identity is built, patched, and persisted via Create;
found (tombstoned or active) → its deleteAt is cleared to 0, the patch
applied, and it is persisted via Update; the returned value is the
post-patch, post-persist record. -/
theorem link_branches_on_lookup (env : Env) (st : Store) (now : Nat)
    (g s : String) (t : GroupSyncableType) (p : GroupSyncablePatch)
    (hlic : env.licenseOk = true)
    (ht : t = .team → env.hasTeamPermission s .manageTeam = true)
    (hc : t = .channel → env.hasChannelPermission s .managePublicChannelMembers = true) :
    (st.getGroupSyncable g s t = .error (.storeFailure sqlErrNoRows) →
       linkGroupSyncable env st now g s t p =
         (.ok (st.createGroupSyncable
             (GroupSyncable.patch ⟨g, s, t, false, 0, 0⟩ p) now).1,
          (st.createGroupSyncable
             (GroupSyncable.patch ⟨g, s, t, false, 0, 0⟩ p) now).2, 1)) ∧
    (∀ found, st.getGroupSyncable g s t = .ok found →
       linkGroupSyncable env st now g s t p =
         (.ok (st.updateGroupSyncable
             (GroupSyncable.patch { found with deleteAt := 0 } p)).1,
          (st.updateGroupSyncable
             (GroupSyncable.patch { found with deleteAt := 0 } p)).2, 1)) := by
  have hperm := linkPermissionCheck_none env s t ht hc
  constructor
  · intro hnf
    simp [linkGroupSyncable, hlic, hperm, hnf, ApiError.detailed]
  · intro found hfound
    simp [linkGroupSyncable, hlic, hperm, hfound]

/-- Closed instance of `link_branches_on_lookup`: linking a fresh triple
on the empty store takes the create branch. -/
theorem link_branches_on_lookup_witness :
    linkGroupSyncable envAllow ⟨[], none⟩ 5 "g" "s" .team ⟨some true⟩ =
      (.ok ((⟨[], none⟩ : Store).createGroupSyncable
          (GroupSyncable.patch ⟨"g", "s", .team, false, 0, 0⟩ ⟨some true⟩) 5).1,
       ((⟨[], none⟩ : Store).createGroupSyncable
          (GroupSyncable.patch ⟨"g", "s", .team, false, 0, 0⟩ ⟨some true⟩) 5).2, 1) :=
  (link_branches_on_lookup envAllow ⟨[], none⟩ 5 "g" "s" .team ⟨some true⟩ rfl
      (fun _ => rfl) (fun _ => rfl)).1 rfl

/-- Claim C2 (code bug demonstration): for a channel link, a session
holding exactly `PERMISSION_MANAGE_PRIVATE_CHANNEL_MEMBERS` — the very
capability the denial error names — is denied, because the capability
actually checked is `PERMISSION_MANAGE_PUBLIC_CHANNEL_MEMBERS`: a
session holding exactly that one passes the gate and reaches the store
write.  So the denial error names a capability different from the one
checked. -/
theorem link_channel_denial_names_unchecked_capability :
    (linkGroupSyncable envOnlyPrivate ⟨[], none⟩ 0 "g" "c" .channel ⟨some true⟩).1 =
      .error (.permissionDenied .managePrivateChannelMembers) ∧
    (linkGroupSyncable envOnlyPublic ⟨[], none⟩ 0 "g" "c" .channel ⟨some true⟩).2.2 = 1 ∧
    Permission.managePrivateChannelMembers ≠ Permission.managePublicChannelMembers :=
  ⟨rfl, rfl, by decide⟩

/-- Claim C3: with the license and permission gates passed, a lookup
error other than "record not found" aborts the Link and is returned to
the caller unchanged, with no write; the "record not found" lookup
outcome is not an error at the Link boundary — it selects the create
branch and the call succeeds with the created record. -/
theorem link_lookup_error_propagation (env : Env) (st : Store) (now : Nat)
    (g s : String) (t : GroupSyncableType) (p : GroupSyncablePatch)
    (hlic : env.licenseOk = true)
    (ht : t = .team → env.hasTeamPermission s .manageTeam = true)
    (hc : t = .channel → env.hasChannelPermission s .managePublicChannelMembers = true) :
    (∀ e, st.getGroupSyncable g s t = .error e → e.detailed ≠ sqlErrNoRows →
       linkGroupSyncable env st now g s t p = (.error e, st, 0)) ∧
    (st.getGroupSyncable g s t = .error (.storeFailure sqlErrNoRows) →
       (linkGroupSyncable env st now g s t p).1 =
         .ok (st.createGroupSyncable
             (GroupSyncable.patch ⟨g, s, t, false, 0, 0⟩ p) now).1 ∧
       (linkGroupSyncable env st now g s t p).2.2 = 1) := by
  have hperm := linkPermissionCheck_none env s t ht hc
  constructor
  · intro e he hne
    simp [linkGroupSyncable, hlic, hperm, he, hne]
  · intro hnf
    simp [linkGroupSyncable, hlic, hperm, hnf, ApiError.detailed]

/-- Closed instance of `link_lookup_error_propagation`: on a store whose
lookup fails with an opaque fault, the Link aborts with that very error
and the store is unchanged. -/
theorem link_lookup_error_propagation_witness :
    linkGroupSyncable envAllow ⟨[], some "connection reset"⟩ 5 "g" "s" .team ⟨some true⟩ =
      (.error (.storeFailure "connection reset"), ⟨[], some "connection reset"⟩, 0) :=
  (link_lookup_error_propagation envAllow ⟨[], some "connection reset"⟩ 5 "g" "s" .team
      ⟨some true⟩ rfl (fun _ => rfl) (fun _ => rfl)).1
    (.storeFailure "connection reset") rfl (by decide)

/-- Claim C4: Link on an absent triple, then Unlink, then Link with a
second patch yields a record with the original identity, `deleteAt = 0`,
and patchable fields matching the second patch rather than the first. -/
theorem link_unlink_link_resurrection
    (env : Env) (st0 : Store) (g s : String) (t : GroupSyncableType)
    (p p2 : GroupSyncablePatch) (n1 n2 n3 : Nat)
    (hlic : env.licenseOk = true)
    (ht : t = .team → env.hasTeamPermission s .manageTeam = true)
    (hc : t = .channel → env.hasChannelPermission s .managePublicChannelMembers = true)
    (hsys : env.hasSystemPermission .manageSystem = true)
    (habsent : st0.records.find? (matchesTriple g s t) = none)
    (hfault : st0.lookupFault = none) :
    ∃ (r1 : GroupSyncable) (st1 st2 : Store) (r3 : GroupSyncable) (st3 : Store),
      linkGroupSyncable env st0 n1 g s t p = (.ok r1, st1, 1) ∧
      unlinkGroupSyncable env st1 n2 g s t = (.ok (), st2) ∧
      linkGroupSyncable env st2 n3 g s t p2 = (.ok r3, st3, 1) ∧
      r3.groupId = g ∧ r3.syncableId = s ∧ r3.type = t ∧
      r3.deleteAt = 0 ∧
      r3.autoAdd = p2.autoAdd.getD (p.autoAdd.getD false) ∧
      (∀ b, p2.autoAdd = some b → r3.autoAdd = b) := by
  have hperm := linkPermissionCheck_none env s t ht hc
  refine ⟨⟨g, s, t, p.autoAdd.getD false, n1, 0⟩,
    ⟨⟨g, s, t, p.autoAdd.getD false, n1, 0⟩ :: st0.records, st0.lookupFault⟩,
    ⟨⟨g, s, t, p.autoAdd.getD false, n1, n2⟩ :: st0.records, st0.lookupFault⟩,
    ⟨g, s, t, p2.autoAdd.getD (p.autoAdd.getD false), n1, 0⟩,
    ⟨⟨g, s, t, p2.autoAdd.getD (p.autoAdd.getD false), n1, 0⟩ :: st0.records,
      st0.lookupFault⟩,
    ?_, ?_, ?_, rfl, rfl, rfl, rfl, rfl, ?_⟩
  · have hnf : st0.getGroupSyncable g s t = .error (.storeFailure sqlErrNoRows) := by
      simp [Store.getGroupSyncable, hfault, habsent]
    simp [linkGroupSyncable, hlic, hperm, hnf, ApiError.detailed,
      Store.createGroupSyncable, GroupSyncable.patch]
  · have hact : activeMatch g s t
        (⟨g, s, t, p.autoAdd.getD false, n1, 0⟩ : GroupSyncable) = true := by
      simp [activeMatch, matchesTriple]
    simp [unlinkGroupSyncable, hlic, hsys, Store.deleteGroupSyncable, List.find?, hact,
      tombstone_map_of_no_match st0.records g s t n2 habsent]
  · have hm2 : matchesTriple g s t
        (⟨g, s, t, p.autoAdd.getD false, n1, n2⟩ : GroupSyncable) = true := by
      simp [matchesTriple]
    have hfound :
        Store.getGroupSyncable
          ⟨⟨g, s, t, p.autoAdd.getD false, n1, n2⟩ :: st0.records, st0.lookupFault⟩
          g s t = .ok ⟨g, s, t, p.autoAdd.getD false, n1, n2⟩ := by
      simp [Store.getGroupSyncable, hfault, List.find?, hm2]
    simp [linkGroupSyncable, hlic, hperm, hfound, GroupSyncable.patch,
      Store.updateGroupSyncable, List.map_cons, hm2,
      update_map_of_no_match st0.records g s t
        ⟨g, s, t, p2.autoAdd.getD (p.autoAdd.getD false), n1, 0⟩ habsent]
  · intro b hb
    simp [hb]

/-- Closed instance of `link_unlink_link_resurrection` on the empty
store with a team syncable and two concrete patches. -/
theorem link_unlink_link_resurrection_witness :
    ∃ (r1 : GroupSyncable) (st1 st2 : Store) (r3 : GroupSyncable) (st3 : Store),
      linkGroupSyncable envAllow ⟨[], none⟩ 5 "g" "s" .team ⟨some true⟩ =
        (.ok r1, st1, 1) ∧
      unlinkGroupSyncable envAllow st1 7 "g" "s" .team = (.ok (), st2) ∧
      linkGroupSyncable envAllow st2 9 "g" "s" .team ⟨some false⟩ =
        (.ok r3, st3, 1) ∧
      r3.groupId = "g" ∧ r3.syncableId = "s" ∧ r3.type = .team ∧
      r3.deleteAt = 0 ∧
      r3.autoAdd = (some false).getD ((some true).getD false) ∧
      (∀ b, some false = some b → r3.autoAdd = b) :=
  link_unlink_link_resurrection envAllow ⟨[], none⟩ "g" "s" .team
    ⟨some true⟩ ⟨some false⟩ 5 7 9 rfl (fun _ => rfl) (fun _ => rfl) rfl rfl rfl

/-- Claim C5: a Link invocation performs at most one store write (and
exactly one when it succeeds), and performs no write — the store is
returned unchanged — when the license gate fails, when the permission
switch denies, or when the lookup fails with an error other than
"record not found". -/
theorem link_write_discipline (env : Env) (st : Store) (now : Nat)
    (g s : String) (t : GroupSyncableType) (p : GroupSyncablePatch) :
    (linkGroupSyncable env st now g s t p).2.2 ≤ 1 ∧
    (∀ gs, (linkGroupSyncable env st now g s t p).1 = .ok gs →
       (linkGroupSyncable env st now g s t p).2.2 = 1) ∧
    (env.licenseOk = false →
       linkGroupSyncable env st now g s t p = (.error .licenseError, st, 0)) ∧
    (∀ e, env.licenseOk = true → linkPermissionCheck env s t = some e →
       linkGroupSyncable env st now g s t p = (.error e, st, 0)) ∧
    (∀ e, env.licenseOk = true → linkPermissionCheck env s t = none →
       st.getGroupSyncable g s t = .error e → e.detailed ≠ sqlErrNoRows →
       linkGroupSyncable env st now g s t p = (.error e, st, 0)) := by
  refine ⟨?_, ?_, ?_, ?_, ?_⟩
  · unfold linkGroupSyncable
    split
    · simp
    · split
      · simp
      · split
        · split
          · simp
          · simp [Store.createGroupSyncable]
        · simp [Store.updateGroupSyncable]
  · intro gs
    unfold linkGroupSyncable
    split
    · simp
    · split
      · simp
      · split
        · split
          · simp
          · simp [Store.createGroupSyncable]
        · simp [Store.updateGroupSyncable]
  · intro hl
    simp [linkGroupSyncable, hl]
  · intro e hl hp
    simp [linkGroupSyncable, hl, hp]
  · intro e hl hp he hne
    simp [linkGroupSyncable, hl, hp, he, hne]

/-- Closed instance of `link_write_discipline`: with no license, the
Link is rejected and the store is unchanged with zero writes. -/
theorem link_write_discipline_witness :
    linkGroupSyncable ⟨false, fun _ _ => true, fun _ _ => true, fun _ => true⟩
        ⟨[], none⟩ 5 "g" "s" .team ⟨some true⟩ =
      (.error .licenseError, ⟨[], none⟩, 0) :=
  (link_write_discipline ⟨false, fun _ _ => true, fun _ _ => true, fun _ => true⟩
      ⟨[], none⟩ 5 "g" "s" .team ⟨some true⟩).2.2.1 rfl

/-- Claim C6: a Patch call that passes the gates fetches the existing
record, applies only the patch's fields, and persists an update; when no
record exists for the triple it fails with the store's not-found error
and performs no write; it never creates or resurrects a record — the
patch leaves the identity and `deleteAt` untouched, and any fetch error
(the not-found one included) aborts with the store unchanged. -/
theorem patch_requires_existing_record (env : Env) (st : Store)
    (g s : String) (t : GroupSyncableType) (p : GroupSyncablePatch)
    (hlic : env.licenseOk = true)
    (hsys : env.hasSystemPermission .manageSystem = true) :
    (∀ e, st.getGroupSyncable g s t = .error e →
       patchGroupSyncable env st g s t p = (.error e, st, 0)) ∧
    (st.lookupFault = none → st.records.find? (matchesTriple g s t) = none →
       patchGroupSyncable env st g s t p = (.error (.storeFailure sqlErrNoRows), st, 0)) ∧
    (∀ found, st.getGroupSyncable g s t = .ok found →
       patchGroupSyncable env st g s t p =
         (.ok (st.updateGroupSyncable (found.patch p)).1,
          (st.updateGroupSyncable (found.patch p)).2, 1) ∧
       (found.patch p).deleteAt = found.deleteAt ∧
       (found.patch p).groupId = found.groupId ∧
       (found.patch p).syncableId = found.syncableId ∧
       (found.patch p).type = found.type) := by
  refine ⟨?_, ?_, ?_⟩
  · intro e he
    simp [patchGroupSyncable, hlic, hsys, he]
  · intro hfault habsent
    have hnf : st.getGroupSyncable g s t = .error (.storeFailure sqlErrNoRows) := by
      simp [Store.getGroupSyncable, hfault, habsent]
    simp [patchGroupSyncable, hlic, hsys, hnf]
  · intro found hfound
    refine ⟨?_, rfl, rfl, rfl, rfl⟩
    simp [patchGroupSyncable, hlic, hsys, hfound]

/-- Closed instance of `patch_requires_existing_record`: a Patch aimed
at a triple absent from the store fails with the store's not-found error
and leaves the store unchanged. -/
theorem patch_requires_existing_record_witness :
    patchGroupSyncable envAllow ⟨[], none⟩ "g" "s" .team ⟨some true⟩ =
      (.error (.storeFailure sqlErrNoRows), ⟨[], none⟩, 0) :=
  (patch_requires_existing_record envAllow ⟨[], none⟩ "g" "s" .team ⟨some true⟩
      rfl rfl).2.1 rfl rfl

/-- Claim C7: the Unlink permission gate is the single system-level
capability `PERMISSION_MANAGE_SYSTEM`, uniformly in the syncable type
and independent of the per-type oracles; with the gates passed the store
Delete decides the outcome — its success state is adopted, and for a
nonexistent or already-tombstoned record its not-found error is
propagated to the caller rather than succeeding as a no-op. -/
theorem unlink_system_gate_and_not_found (env : Env) (st : Store) (now : Nat)
    (g s : String) (t : GroupSyncableType)
    (hlic : env.licenseOk = true) :
    (env.hasSystemPermission .manageSystem = false →
       unlinkGroupSyncable env st now g s t =
         (.error (.permissionDenied .manageSystem), st)) ∧
    (∀ env2 : Env, env2.licenseOk = env.licenseOk →
       env2.hasSystemPermission = env.hasSystemPermission →
       unlinkGroupSyncable env2 st now g s t = unlinkGroupSyncable env st now g s t) ∧
    (env.hasSystemPermission .manageSystem = true →
       (∀ st2, st.deleteGroupSyncable g s t now = .ok st2 →
          unlinkGroupSyncable env st now g s t = (.ok (), st2)) ∧
       (st.records.find? (activeMatch g s t) = none →
          unlinkGroupSyncable env st now g s t =
            (.error (.storeFailure sqlErrNoRows), st))) := by
  refine ⟨?_, ?_, ?_⟩
  · intro hsys
    simp [unlinkGroupSyncable, hlic, hsys]
  · intro env2 h1 h2
    simp [unlinkGroupSyncable, h1, h2]
  · intro hsys
    constructor
    · intro st2 hdel
      simp [unlinkGroupSyncable, hlic, hsys, hdel]
    · intro habsent
      simp [unlinkGroupSyncable, hlic, hsys, Store.deleteGroupSyncable, habsent]

/-- Closed instance of `unlink_system_gate_and_not_found`: unlinking a
nonexistent record on the empty store reports the store's not-found
error. -/
theorem unlink_system_gate_and_not_found_witness :
    unlinkGroupSyncable envAllow ⟨[], none⟩ 7 "g" "s" .team =
      (.error (.storeFailure sqlErrNoRows), ⟨[], none⟩) :=
  ((unlink_system_gate_and_not_found envAllow ⟨[], none⟩ 7 "g" "s" .team rfl).2.2
    rfl).2 rfl

/-- Splitting any list into single-element pages and rejoining them in
order gives the list back. -/
theorem join_take_one_pages {α : Type} (l : List α) :
    ((List.range l.length).map (fun i => (l.drop i).take 1)).flatten = l := by
  induction l with
  | nil => rfl
  | cons a tl ih =>
    rw [List.length_cons, List.range_succ_eq_map, List.map_cons, List.map_map]
    simp only [List.drop_zero, List.take_succ_cons, List.take_zero, List.flatten_cons,
      List.singleton_append, Function.comp_def, List.drop_succ_cons]
    rw [ih]

/-- A paged team search is the corresponding slice of the unpaginated
team search. -/
theorem getGroupsByTeamApp_page_slice (w : GroupsWorld) (teamId : String)
    (pg pp : Nat) (opts : GroupSearchOpts) :
    getGroupsByTeamApp w teamId (some pg) (some pp) opts =
      ((getGroupsByTeamApp w teamId none none opts).drop (pg * pp)).take pp := rfl

/-- Claim C8: with paginate explicitly false, `getGroupsByTeam` ignores
the page and perPage parameters entirely and returns the full matching
sequence in one shot; that full sequence equals the order-preserved
concatenation of the paginated traversal of all pages with perPage 1. -/
theorem getGroupsByTeam_unpaginated_escape_hatch (env : Env) (w : GroupsWorld)
    (teamId : String) (params : Params)
    (hlic : env.licenseOk = true)
    (hperm : env.hasTeamPermission teamId .manageTeam = true)
    (hpag : params.paginate = some false) :
    (∀ pg pp : Nat,
       getGroupsByTeam env w teamId { params with page := pg, perPage := pp } =
         getGroupsByTeam env w teamId params) ∧
    getGroupsByTeam env w teamId params =
      .ok (getGroupsByTeamApp w teamId none none (buildTeamSearchOpts params)) ∧
    ((List.range (getGroupsByTeamApp w teamId none none
          (buildTeamSearchOpts params)).length).map (fun i =>
        getGroupsByTeamApp w teamId (some i) (some 1)
          (buildTeamSearchOpts params))).flatten =
      getGroupsByTeamApp w teamId none none (buildTeamSearchOpts params) := by
  refine ⟨?_, ?_, ?_⟩
  · intro pg pp
    simp [getGroupsByTeam, hlic, hperm, hpag, buildTeamSearchOpts]
  · simp [getGroupsByTeam, hlic, hperm, hpag]
  · simp only [getGroupsByTeamApp_page_slice, mul_one]
    exact join_take_one_pages _

/-- Closed instance of `getGroupsByTeam_unpaginated_escape_hatch`: with
paginate false and an out-of-range page, the full two-group sequence is
returned in one shot. -/
theorem getGroupsByTeam_unpaginated_escape_hatch_witness :
    getGroupsByTeam envAllow teamWorld "T" ⟨"", 3, 2, false, "", some false⟩ =
      .ok (getGroupsByTeamApp teamWorld "T" none none
        (buildTeamSearchOpts ⟨"", 3, 2, false, "", some false⟩)) :=
  (getGroupsByTeam_unpaginated_escape_hatch envAllow teamWorld "T"
      ⟨"", 3, 2, false, "", some false⟩ rfl rfl rfl).2.1

/-- Claim C9 counterexample: a `getGroupsByTeam` call whose
notAssociatedToTeam parameter carries a valid 26-character team id still
returns the group associated to that very team — the option does not
affect the search passed to the store, although the store-side filter,
had it been passed, would have excluded the group. -/
theorem getGroupsByTeam_ignores_notAssociatedToTeam :
    (⟨"", 0, 60, false, teamId26, some false⟩ : Params).notAssociatedToTeam =
      teamId26 ∧
    teamId26.length = 26 ∧
    getGroupsByTeam envAllow assocWorld teamId26
      ⟨"", 0, 60, false, teamId26, some false⟩ = .ok [groupEng] ∧
    getGroupsByTeamApp assocWorld teamId26 none none
      ⟨none, false, some teamId26⟩ = [] :=
  ⟨rfl, rfl, rfl, rfl⟩

/-- Claim C9 as amended: `getGroupsByTeam` recognizes and applies the
display-name query (when longer than one character), the member-count
flag, and the paginate escape hatch; the notAssociatedToTeam parameter
is never read — the options passed to the store always carry none for
it, and the result is unchanged under any value of that parameter. -/
theorem getGroupsByTeam_recognized_options (env : Env) (w : GroupsWorld)
    (teamId : String) (params : Params) (x : String)
    (hlic : env.licenseOk = true)
    (hperm : env.hasTeamPermission teamId .manageTeam = true) :
    getGroupsByTeam env w teamId { params with notAssociatedToTeam := x } =
      getGroupsByTeam env w teamId params ∧
    (buildTeamSearchOpts params).notAssociatedToTeam = none ∧
    (params.q.length > 1 → (buildTeamSearchOpts params).q = some params.q) ∧
    (¬ params.q.length > 1 → (buildTeamSearchOpts params).q = none) ∧
    (buildTeamSearchOpts params).includeMemberCount = params.includeMemberCount ∧
    (params.paginate = some false →
       getGroupsByTeam env w teamId params =
         .ok (getGroupsByTeamApp w teamId none none (buildTeamSearchOpts params))) ∧
    (params.paginate ≠ some false →
       getGroupsByTeam env w teamId params =
         .ok (getGroupsByTeamApp w teamId (some params.page) (some params.perPage)
             (buildTeamSearchOpts params))) := by
  refine ⟨?_, ?_, ?_, ?_, ?_, ?_, ?_⟩
  · simp [getGroupsByTeam, buildTeamSearchOpts]
  · by_cases hq : params.q.length > 1 <;> cases him : params.includeMemberCount <;>
      simp [buildTeamSearchOpts, hq, him]
  · intro hq
    cases him : params.includeMemberCount <;> simp [buildTeamSearchOpts, hq, him]
  · intro hq
    cases him : params.includeMemberCount <;> simp [buildTeamSearchOpts, hq, him]
  · by_cases hq : params.q.length > 1 <;> cases him : params.includeMemberCount <;>
      simp [buildTeamSearchOpts, hq, him]
  · intro hpag
    simp [getGroupsByTeam, hlic, hperm, hpag]
  · intro hpag
    simp [getGroupsByTeam, hlic, hperm, hpag]

/-- Closed instance of `getGroupsByTeam_recognized_options`: the result
is unchanged when the notAssociatedToTeam parameter is swapped in. -/
theorem getGroupsByTeam_recognized_options_witness :
    getGroupsByTeam envAllow assocWorld teamId26
        { (⟨"", 0, 60, false, "", some false⟩ : Params) with
            notAssociatedToTeam := teamId26 } =
      getGroupsByTeam envAllow assocWorld teamId26
        ⟨"", 0, 60, false, "", some false⟩ :=
  (getGroupsByTeam_recognized_options envAllow assocWorld teamId26
      ⟨"", 0, 60, false, "", some false⟩ teamId26 rfl rfl).1

/-- Claim C10: in `getGroups` the notAssociatedToTeam filter and its
`PERMISSION_MANAGE_TEAM` check are applied iff the parameter has length
exactly 26; for any other length the option is silently ignored, no
permission check of any kind is performed — the outcome is the same
under every permission oracle — and the unfiltered paged listing is
returned rather than an invalid-argument error. -/
theorem getGroups_notAssociatedToTeam_length_gate (env : Env) (w : GroupsWorld)
    (params : Params)
    (hlic : env.licenseOk = true) :
    (params.notAssociatedToTeam.length = 26 →
       (env.hasTeamPermission params.notAssociatedToTeam .manageTeam = false →
          getGroups env w params = .error (.permissionDenied .manageTeam)) ∧
       (env.hasTeamPermission params.notAssociatedToTeam .manageTeam = true →
          getGroups env w params =
            .ok (getGroupsPageApp w params.page params.perPage
              ⟨if params.q.length > 1 then some params.q else none,
               params.includeMemberCount, some params.notAssociatedToTeam⟩))) ∧
    (params.notAssociatedToTeam.length ≠ 26 →
       ∀ env2 : Env, env2.licenseOk = true →
         getGroups env2 w params =
           .ok (getGroupsPageApp w params.page params.perPage
             ⟨if params.q.length > 1 then some params.q else none,
              params.includeMemberCount, none⟩)) := by
  constructor
  · intro h26
    constructor
    · intro hperm
      simp [getGroups, hlic, h26, hperm]
    · intro hperm
      by_cases hq : params.q.length > 1 <;> cases him : params.includeMemberCount <;>
        simp [getGroups, hlic, h26, hperm, hq, him]
  · intro h26 env2 hlic2
    by_cases hq : params.q.length > 1 <;> cases him : params.includeMemberCount <;>
      simp [getGroups, hlic2, h26, hq, him]

/-- Closed instance of `getGroups_notAssociatedToTeam_length_gate`: with
a 5-character notAssociatedToTeam value and an oracle granting no
permission at all, `getGroups` still returns the unfiltered paged
listing. -/
theorem getGroups_notAssociatedToTeam_length_gate_witness :
    getGroups ⟨true, fun _ _ => false, fun _ _ => false, fun _ => false⟩
        assocWorld ⟨"", 0, 60, false, "short", none⟩ =
      .ok (getGroupsPageApp assocWorld 0 60 ⟨none, false, none⟩) :=
  (getGroups_notAssociatedToTeam_length_gate
      ⟨true, fun _ _ => false, fun _ _ => false, fun _ => false⟩
      assocWorld ⟨"", 0, 60, false, "short", none⟩ rfl).2
    (by decide) ⟨true, fun _ _ => false, fun _ _ => false, fun _ => false⟩ rfl

end Api4Group
